import Mathlib

/-!
Verification of the board-generation core of the `church_bingo` repository
(`src/services/board_generator.py`): the feasibility validator
`validate_word_count`, the generator `generate_boards`, and its helpers
`_build_grid` and `_factorial_limit`.

The Python functions are embedded shallowly:

* machine integers are `Nat`/`Int` (`fill_needed` is an `Int`, since the
  Python subtraction can go negative);
* `random.sample` / `random.shuffle` outcomes are supplied by an explicit
  oracle `draws : Nat → Nat → Draw` (card index, attempt index); the
  predicate `ValidDraws` states exactly that each oracle entry is an
  outcome the Python random source could have produced (a duplicate-free
  sample of the computed size from the remaining pool, shuffled into some
  permutation of `guaranteed ++ filler`);
* Python exceptions (`ValueError` from `random.sample`, `IndexError` from
  list indexing in `_build_grid`) are `Except.error`;
* the `while attempts < 100` retry loop is a fuel recursion started with
  fuel 100; when the fuel runs out the last candidate is used without
  being added to `seen`, exactly as in the Python control flow where
  `card_words` leaks out of the exhausted `while` loop.
-/

namespace ChurchBingo

abbrev Word := String

/-- One outcome of the random source for a single loop iteration:
the `filler` list returned by `random.sample(remaining_pool, k)` and the
resulting `card_words` list after `random.shuffle(guaranteed + filler)`. -/
structure Draw where
  filler : List Word
  shuffled : List Word
deriving DecidableEq

/-- `validate_word_count(words, board_size, card_count, word_mode)` from
`src/services/board_generator.py` (lines 4-22). -/
def validate_word_count (words : List Word) (board_size card_count : Nat)
    (word_mode : String) : Bool × String :=
  let cells := board_size * board_size - (if board_size = 5 then 1 else 0)
  if words.length < cells then
    (false,
      "Need at least " ++ toString cells ++ " words for a " ++ toString board_size ++
        "x" ++ toString board_size ++ " board, but only have " ++
        toString words.length ++ ".")
  else if word_mode = "different_per_board" ∧ words.length < cells + 5 then
    let recommended := min (cells * 2) (cells + card_count * 3)
    (false,
      "For boards with different words, recommend at least " ++ toString recommended ++
        " words. You have " ++ toString words.length ++
        ". Add more words or switch to \x27Same words\x27 mode.")
  else
    (true, "OK")

/-- `_factorial_limit(n)` (lines 72-77): the running product
`for i in range(1, min(n + 1, 13)): result *= i`, i.e. `min(n, 12)!`. -/
def _factorial_limit (n : Nat) : Nat :=
  (List.range' 1 (min (n + 1) 13 - 1)).foldl (fun result i => result * i) 1

/-- Inner `for col in range(board_size)` loop of `_build_grid`
(lines 60-67), processing the cols in `cols`, threading the running index
`idx` into `words_for_card`; an out-of-range access is Python's
`IndexError`. -/
def _build_row (ws : List Word) (bs row : Nat) :
    List Nat → Nat → Except String (List Word × Nat)
  | [], idx => .ok ([], idx)
  | col :: cols, idx =>
    if bs = 5 ∧ row = 2 ∧ col = 2 then
      match _build_row ws bs row cols idx with
      | .error e => .error e
      | .ok (cells, idx2) => .ok ("FREE" :: cells, idx2)
    else
      match ws.get? idx with
      | none => .error "IndexError: list index out of range"
      | some w =>
        match _build_row ws bs row cols (idx + 1) with
        | .error e => .error e
        | .ok (cells, idx2) => .ok (w :: cells, idx2)

/-- Outer `for row in range(board_size)` loop of `_build_grid`
(lines 58-68). -/
def _build_rows (ws : List Word) (bs : Nat) :
    List Nat → Nat → Except String (List (List Word) × Nat)
  | [], idx => .ok ([], idx)
  | row :: rows, idx =>
    match _build_row ws bs row (List.range bs) idx with
    | .error e => .error e
    | .ok (cells, idx2) =>
      match _build_rows ws bs rows idx2 with
      | .error e => .error e
      | .ok (grid, idx3) => .ok (cells :: grid, idx3)

/-- `_build_grid(words_for_card, board_size)` (lines 57-69). -/
def _build_grid (ws : List Word) (bs : Nat) : Except String (List (List Word)) :=
  match _build_rows ws bs (List.range bs) 0 with
  | .error e => .error e
  | .ok (grid, _) => .ok grid

/-- The sample size handed to `random.sample` on each iteration
(lines 37-41): `fill_needed` in `same_shuffled` mode, clamped by the
remaining-pool size in any other mode. -/
def sampleSize (cells guarLen rpLen : Nat) (word_mode : String) : Int :=
  let fill_needed : Int := (cells : Int) - (guarLen : Int)
  if word_mode = "same_shuffled" then fill_needed
  else min fill_needed (rpLen : Int)

/-- The `while attempts < 100` retry loop for one card (lines 35-49),
as a fuel recursion: `fuel` counts the iterations still allowed
(initially 100), `attempts` is the Python counter indexing the oracle.
`random.sample` raises `ValueError` when the requested size is negative
or exceeds the population; a candidate is accepted when its post-shuffle
tuple is not in `seen` or the overflow bypass fires; when the last
allowed iteration rejects, the loop falls through using that candidate
without recording it in `seen`. -/
def cardLoop (rp guar : List Word) (cells card_count : Nat) (word_mode : String)
    (draw : Nat → Draw) (seen : List (List Word)) :
    Nat → Nat → Except String (List Word × List (List Word))
  | _attempts, 0 => .error "impossible"
  | attempts, fuel + 1 =>
    let k : Int := sampleSize cells guar.length rp.length word_mode
    if k < 0 ∨ (rp.length : Int) < k then
      .error "Sample larger than population or is negative"
    else
      let card_words := (draw attempts).shuffled
      if card_words ∉ seen ∨ _factorial_limit cells < card_count then
        .ok (card_words, card_words :: seen)
      else
        match fuel with
        | 0 => .ok (card_words, seen)
        | fuel' + 1 =>
          cardLoop rp guar cells card_count word_mode draw seen (attempts + 1) (fuel' + 1)

/-- The `for _ in range(card_count)` loop of `generate_boards`
(lines 34-52), over the list of remaining card indices, threading `seen`. -/
def genLoop (rp guar : List Word) (cells bs card_count : Nat) (word_mode : String)
    (draws : Nat → Nat → Draw) :
    List Nat → List (List Word) → Except String (List (List (List Word)))
  | [], _ => .ok []
  | i :: rest, seen =>
    match cardLoop rp guar cells card_count word_mode (draws i) seen 0 100 with
    | .error e => .error e
    | .ok (card_words, seen2) =>
      match _build_grid card_words bs with
      | .error e => .error e
      | .ok grid =>
        match genLoop rp guar cells bs card_count word_mode draws rest seen2 with
        | .error e => .error e
        | .ok boards => .ok (grid :: boards)

/-- `cells_needed` (line 26): free center only for 5×5. -/
def cellsNeeded (board_size : Nat) : Nat :=
  board_size * board_size - (if board_size = 5 then 1 else 0)

/-- `guaranteed = [w for w in (custom_words or []) if w in words]` (line 31). -/
def guaranteedOf (words custom_words : List Word) : List Word :=
  custom_words.filter (fun w => decide (w ∈ words))

/-- `remaining_pool = [w for w in words if w not in guaranteed]` (line 32). -/
def remainingPoolOf (words custom_words : List Word) : List Word :=
  words.filter (fun w => decide (w ∉ guaranteedOf words custom_words))

/-- `generate_boards(words, board_size, card_count, word_mode, custom_words)`
(lines 25-54), with the random source made explicit as `draws`. -/
def generate_boards (words : List Word) (board_size card_count : Nat)
    (word_mode : String) (custom_words : List Word)
    (draws : Nat → Nat → Draw) : Except String (List (List (List Word))) :=
  genLoop (remainingPoolOf words custom_words) (guaranteedOf words custom_words)
    (cellsNeeded board_size) board_size card_count word_mode draws
    (List.range card_count) []

/-- The oracle entry `d` is an outcome `random.sample(rp, k)` followed by
`random.shuffle(guar + filler)` could actually produce. -/
def ValidDraw (rp guar : List Word) (k : Nat) (d : Draw) : Prop :=
  d.filler.Nodup ∧ d.filler ⊆ rp ∧ d.filler.length = k ∧
    d.shuffled.Perm (guar ++ d.filler)

instance (rp guar : List Word) (k : Nat) (d : Draw) :
    Decidable (ValidDraw rp guar k d) := by
  unfold ValidDraw; infer_instance

/-- Every oracle entry is a possible random outcome for the given request. -/
def ValidDraws (rp guar : List Word) (cells : Nat) (word_mode : String)
    (draws : Nat → Nat → Draw) : Prop :=
  ∀ i j, ValidDraw rp guar (sampleSize cells guar.length rp.length word_mode).toNat (draws i j)

/-! ### Counting helpers for `_build_grid` -/

/-- Is `(row, col)` the free center cell (the `board_size == 5 and row == 2
and col == 2` test of line 63)? -/
def isFreeCol (bs row col : Nat) : Bool := decide (bs = 5 ∧ row = 2 ∧ col = 2)

/-- Number of word-consuming cells among `cols` in row `row`. -/
def rowCnt (bs row : Nat) (cols : List Nat) : Nat :=
  cols.countP (fun c => !isFreeCol bs row c)

/-- Number of free cells among `cols` in row `row`. -/
def rowFreeCnt (bs row : Nat) (cols : List Nat) : Nat :=
  cols.countP (fun c => isFreeCol bs row c)

/-- Total number of word-consuming cells of the grid. -/
def totalCnt (bs : Nat) : Nat :=
  ((List.range bs).map (fun r => rowCnt bs r (List.range bs))).sum

/-- Total number of free cells of the grid. -/
def totalFreeCnt (bs : Nat) : Nat :=
  ((List.range bs).map (fun r => rowFreeCnt bs r (List.range bs))).sum

lemma totalCnt_eq (bs : Nat) : totalCnt bs = cellsNeeded bs := by
  by_cases h : bs = 5
  · subst h; decide
  · have hrow : ∀ r, rowCnt bs r (List.range bs) = bs := by
      intro r
      have : ∀ c ∈ List.range bs, (!isFreeCol bs r c) = true := by
        intro c _; simp [isFreeCol, h]
      rw [rowCnt, List.countP_eq_length.mpr this, List.length_range]
    have hmap : (List.range bs).map (fun r => rowCnt bs r (List.range bs))
        = List.replicate bs bs := by
      rw [List.eq_replicate]
      constructor
      · simp
      · intro b hb
        simp only [List.mem_map] at hb
        obtain ⟨r, _, hr⟩ := hb
        rw [← hr, hrow]
    rw [totalCnt, hmap, List.sum_replicate, smul_eq_mul, cellsNeeded, if_neg h,
      Nat.sub_zero]

lemma totalFreeCnt_eq (bs : Nat) : totalFreeCnt bs = if bs = 5 then 1 else 0 := by
  by_cases h : bs = 5
  · subst h; decide
  · have hrow : ∀ r, rowFreeCnt bs r (List.range bs) = 0 := by
      intro r
      rw [rowFreeCnt, List.countP_eq_zero]
      intro c _; simp [isFreeCol, h]
    have hmap : (List.range bs).map (fun r => rowFreeCnt bs r (List.range bs))
        = List.replicate bs 0 := by
      rw [List.eq_replicate]
      constructor
      · simp
      · intro b hb
        simp only [List.mem_map] at hb
        obtain ⟨r, _, hr⟩ := hb
        rw [← hr, hrow]
    rw [totalFreeCnt, hmap, List.sum_replicate, smul_eq_mul, Nat.mul_zero, if_neg h]

/-! ### Structure of successful `_build_row` / `_build_rows` / `_build_grid` runs -/

lemma build_row_spec (ws : List Word) (bs row : Nat) :
    ∀ (cols : List Nat) (idx : Nat) (cells : List Word) (idx2 : Nat),
      _build_row ws bs row cols idx = .ok (cells, idx2) → idx ≤ ws.length →
      cells.length = cols.length ∧ idx2 = idx + rowCnt bs row cols ∧ idx2 ≤ ws.length ∧
      ∀ w, cells.count w + (ws.drop idx2).count w
          = (ws.drop idx).count w + (if w = "FREE" then rowFreeCnt bs row cols else 0) := by
  intro cols
  induction cols with
  | nil =>
    intro idx cells idx2 h hle
    simp only [_build_row, Except.ok.injEq, Prod.mk.injEq] at h
    obtain ⟨rfl, rfl⟩ := h
    simp [rowCnt, rowFreeCnt, hle]
  | cons c cs ih =>
    intro idx cells idx2 h hle
    simp only [_build_row] at h
    by_cases hc : bs = 5 ∧ row = 2 ∧ c = 2
    · rw [if_pos hc] at h
      cases hrec : _build_row ws bs row cs idx with
      | error e => rw [hrec] at h; exact absurd h (by simp)
      | ok p =>
        obtain ⟨cells', idx'⟩ := p
        rw [hrec] at h
        simp only [Except.ok.injEq, Prod.mk.injEq] at h
        obtain ⟨rfl, rfl⟩ := h
        obtain ⟨hlen, hidx, hbound, hcount⟩ := ih idx cells' idx' hrec hle
        refine ⟨by simp [hlen], ?_, hbound, ?_⟩
        · rw [hidx]
          simp [rowCnt, List.countP_cons, isFreeCol, hc]
        · intro w
          have hfr : rowFreeCnt bs row (c :: cs) = rowFreeCnt bs row cs + 1 := by
            simp [rowFreeCnt, List.countP_cons, isFreeCol, hc]
          rw [List.count_cons, hfr]
          have := hcount w
          rcases eq_or_ne w "FREE" with rfl | hw
          · simp at this ⊢ <;> omega
          · simp [hw, Ne.symm hw] at this ⊢ <;> omega
    · rw [if_neg hc] at h
      cases hget : ws.get? idx with
      | none => rw [hget] at h; exact absurd h (by simp)
      | some a =>
        rw [hget] at h
        cases hrec : _build_row ws bs row cs (idx + 1) with
        | error e => rw [hrec] at h; exact absurd h (by simp)
        | ok p =>
          obtain ⟨cells', idx'⟩ := p
          rw [hrec] at h
          simp only [Except.ok.injEq, Prod.mk.injEq] at h
          obtain ⟨rfl, rfl⟩ := h
          have hlt : idx < ws.length := List.get?_eq_some.mp hget |>.1
          obtain ⟨hlen, hidx, hbound, hcount⟩ := ih (idx + 1) cells' idx' hrec hlt
          have hdrop : ws.drop idx = a :: ws.drop (idx + 1) := by
            rw [List.drop_eq_get_cons hlt]
            congr 1
            have := List.get?_eq_some.mp hget
            obtain ⟨h1, h2⟩ := this
            exact h2
          refine ⟨by simp [hlen], ?_, hbound, ?_⟩
          · rw [hidx]
            simp only [rowCnt, List.countP_cons, isFreeCol]
            rw [decide_eq_false hc]
            simp
            omega
          · intro w
            have hfr : rowFreeCnt bs row (c :: cs) = rowFreeCnt bs row cs := by
              simp [rowFreeCnt, List.countP_cons, isFreeCol, hc]
            rw [List.count_cons, hfr, hdrop, List.count_cons]
            have := hcount w
            rcases eq_or_ne w "FREE" with rfl | hw2
            · rcases eq_or_ne a "FREE" with rfl | hwa
              · simp at this ⊢ <;> omega
              · simp [hwa, Ne.symm hwa] at this ⊢ <;> omega
            · rcases eq_or_ne w a with rfl | hwa
              · simp [hw2, Ne.symm hw2] at this ⊢ <;> omega
              · simp [hw2, Ne.symm hw2, hwa, Ne.symm hwa] at this ⊢ <;> omega

lemma build_rows_spec (ws : List Word) (bs : Nat) :
    ∀ (rows : List Nat) (idx : Nat) (g : List (List Word)) (idx3 : Nat),
      _build_rows ws bs rows idx = .ok (g, idx3) → idx ≤ ws.length →
      g.length = rows.length ∧ (∀ r ∈ g, r.length = bs) ∧
      idx3 = idx + (rows.map (fun r => rowCnt bs r (List.range bs))).sum ∧
      idx3 ≤ ws.length ∧
      ∀ w, g.flatten.count w + (ws.drop idx3).count w
          = (ws.drop idx).count w +
            (if w = "FREE" then (rows.map (fun r => rowFreeCnt bs r (List.range bs))).sum
             else 0) := by
  intro rows
  induction rows with
  | nil =>
    intro idx g idx3 h hle
    simp only [_build_rows, Except.ok.injEq, Prod.mk.injEq] at h
    obtain ⟨rfl, rfl⟩ := h
    simp [hle]
  | cons r rs ih =>
    intro idx g idx3 h hle
    simp only [_build_rows] at h
    cases hrow : _build_row ws bs r (List.range bs) idx with
    | error e => rw [hrow] at h; exact absurd h (by simp)
    | ok p =>
      obtain ⟨cells, idx2⟩ := p
      rw [hrow] at h
      dsimp only at h
      cases hrec : _build_rows ws bs rs idx2 with
      | error e => rw [hrec] at h; exact absurd h (by simp)
      | ok q =>
        obtain ⟨g', idx3'⟩ := q
        rw [hrec] at h
        simp only [Except.ok.injEq, Prod.mk.injEq] at h
        obtain ⟨rfl, rfl⟩ := h
        obtain ⟨hlen1, hidx1, hbound1, hcount1⟩ := build_row_spec ws bs r _ _ _ _ hrow hle
        obtain ⟨hlen2, hall2, hidx2, hbound2, hcount2⟩ := ih idx2 g' idx3' hrec hbound1
        refine ⟨by simp [hlen2], ?_, ?_, hbound2, ?_⟩
        · intro row hrow'
          rcases List.mem_cons.mp hrow' with rfl | hmem
          · rw [hlen1, List.length_range]
          · exact hall2 row hmem
        · rw [hidx2, hidx1]
          simp only [List.map_cons, List.sum_cons]
          omega
        · intro w
          have h1 := hcount1 w
          have h2 := hcount2 w
          simp only [List.flatten_cons, List.count_append, List.map_cons, List.sum_cons]
          by_cases hw : w = "FREE"
          · simp [hw] at h1 h2 ⊢ <;> omega
          · simp only [if_neg hw] at h1 h2 ⊢
            omega

lemma build_grid_spec (ws : List Word) (bs : Nat) (g : List (List Word))
    (h : _build_grid ws bs = .ok g) :
    g.length = bs ∧ (∀ r ∈ g, r.length = bs) ∧ cellsNeeded bs ≤ ws.length ∧
    ∀ w, g.flatten.count w + (ws.drop (cellsNeeded bs)).count w
        = ws.count w + (if w = "FREE" then totalFreeCnt bs else 0) := by
  rw [_build_grid] at h
  cases hrows : _build_rows ws bs (List.range bs) 0 with
  | error e => rw [hrows] at h; exact absurd h (by simp)
  | ok p =>
    obtain ⟨g', idx3⟩ := p
    rw [hrows] at h
    simp only [Except.ok.injEq] at h
    subst h
    obtain ⟨hlen, hall, hidx, hbound, hcount⟩ :=
      build_rows_spec ws bs (List.range bs) 0 g' idx3 hrows (Nat.zero_le _)
    have hN : idx3 = cellsNeeded bs := by
      rw [hidx, ← totalCnt_eq, totalCnt]; omega
    subst hN
    refine ⟨by simp [hlen], hall, hbound, ?_⟩
    intro w
    have := hcount w
    simpa [totalFreeCnt] using this

/-! ### Success of `_build_grid` when enough words are supplied -/

lemma build_row_ok_of_le (ws : List Word) (bs row : Nat) :
    ∀ (cols : List Nat) (idx : Nat), idx + rowCnt bs row cols ≤ ws.length →
      ∃ cells, _build_row ws bs row cols idx = .ok (cells, idx + rowCnt bs row cols) := by
  intro cols
  induction cols with
  | nil => intro idx _; exact ⟨[], by simp [_build_row, rowCnt]⟩
  | cons c cs ih =>
    intro idx hle
    by_cases hc : bs = 5 ∧ row = 2 ∧ c = 2
    · have hcnt : rowCnt bs row (c :: cs) = rowCnt bs row cs := by
        simp [rowCnt, List.countP_cons, isFreeCol, hc]
      rw [hcnt] at hle ⊢
      obtain ⟨cells, hcells⟩ := ih idx hle
      refine ⟨"FREE" :: cells, ?_⟩
      simp only [_build_row, if_pos hc, hcells]
    · have hcnt : rowCnt bs row (c :: cs) = rowCnt bs row cs + 1 := by
        simp [rowCnt, List.countP_cons, isFreeCol, hc]
      rw [hcnt] at hle ⊢
      have hidx : idx < ws.length := by omega
      have ha : ws.get? idx = some (ws.get ⟨idx, hidx⟩) := List.get?_eq_get hidx
      obtain ⟨cells, hcells⟩ := ih (idx + 1) (by omega)
      have harith : idx + 1 + rowCnt bs row cs = idx + (rowCnt bs row cs + 1) := by omega
      rw [harith] at hcells
      refine ⟨ws.get ⟨idx, hidx⟩ :: cells, ?_⟩
      simp only [_build_row, if_neg hc, ha, hcells]

lemma build_rows_ok_of_le (ws : List Word) (bs : Nat) :
    ∀ (rows : List Nat) (idx : Nat),
      idx + (rows.map (fun r => rowCnt bs r (List.range bs))).sum ≤ ws.length →
      ∃ g, _build_rows ws bs rows idx =
        .ok (g, idx + (rows.map (fun r => rowCnt bs r (List.range bs))).sum) := by
  intro rows
  induction rows with
  | nil => intro idx _; exact ⟨[], by simp [_build_rows]⟩
  | cons r rs ih =>
    intro idx hle
    simp only [List.map_cons, List.sum_cons] at hle ⊢
    obtain ⟨cells, hcells⟩ := build_row_ok_of_le ws bs r (List.range bs) idx (by omega)
    obtain ⟨g, hg⟩ := ih (idx + rowCnt bs r (List.range bs)) (by omega)
    have harith : idx + rowCnt bs r (List.range bs) +
        (rs.map (fun r => rowCnt bs r (List.range bs))).sum
        = idx + (rowCnt bs r (List.range bs) +
          (rs.map (fun r => rowCnt bs r (List.range bs))).sum) := by omega
    rw [harith] at hg
    refine ⟨cells :: g, ?_⟩
    simp only [_build_rows, hcells, hg]

lemma build_grid_ok_of_le (ws : List Word) (bs : Nat)
    (h : cellsNeeded bs ≤ ws.length) :
    ∃ g, _build_grid ws bs = .ok g := by
  have := build_rows_ok_of_le ws bs (List.range bs) 0
    (by rw [← totalCnt_eq, totalCnt] at h; omega)
  obtain ⟨g, hg⟩ := this
  exact ⟨g, by rw [_build_grid, hg]⟩

/-! ### Behaviour of the retry loop -/

/-- The condition under which `random.sample` raises `ValueError` on every
iteration of the retry loop for this request. -/
def SampleError (rp guar : List Word) (cells : Nat) (word_mode : String) : Prop :=
  sampleSize cells guar.length rp.length word_mode < 0 ∨
    (rp.length : Int) < sampleSize cells guar.length rp.length word_mode

instance (rp guar : List Word) (cells : Nat) (word_mode : String) :
    Decidable (SampleError rp guar cells word_mode) := by
  unfold SampleError; infer_instance

lemma cardLoop_zero (rp guar : List Word) (cells cc : Nat) (mode : String)
    (draw : Nat → Draw) (seen : List (List Word)) (attempts : Nat) :
    cardLoop rp guar cells cc mode draw seen attempts 0 = .error "impossible" := rfl

lemma cardLoop_succ (rp guar : List Word) (cells cc : Nat) (mode : String)
    (draw : Nat → Draw) (seen : List (List Word)) (attempts fuel : Nat) :
    cardLoop rp guar cells cc mode draw seen attempts (fuel + 1) =
      (if (sampleSize cells guar.length rp.length mode < 0 ∨
          (rp.length : Int) < sampleSize cells guar.length rp.length mode) then
        .error "Sample larger than population or is negative"
      else if (draw attempts).shuffled ∉ seen ∨ _factorial_limit cells < cc then
        .ok ((draw attempts).shuffled, (draw attempts).shuffled :: seen)
      else
        match fuel with
        | 0 => .ok ((draw attempts).shuffled, seen)
        | fuel' + 1 =>
          cardLoop rp guar cells cc mode draw seen (attempts + 1) (fuel' + 1)) := by
  rw [cardLoop]

lemma cardLoop_err (rp guar : List Word) (cells cc : Nat) (mode : String)
    (draw : Nat → Draw) (seen : List (List Word)) (attempts fuel : Nat)
    (h : SampleError rp guar cells mode) :
    cardLoop rp guar cells cc mode draw seen attempts (fuel + 1) =
      .error "Sample larger than population or is negative" := by
  have h' : (sampleSize cells guar.length rp.length mode < 0 ∨
      (rp.length : Int) < sampleSize cells guar.length rp.length mode) := h
  rw [cardLoop_succ]
  rw [if_pos h']

lemma cardLoop_shape (rp guar : List Word) (cells cc : Nat) (mode : String)
    (draw : Nat → Draw) (seen : List (List Word)) :
    ∀ (fuel attempts : Nat) (cw : List Word) (s2 : List (List Word)),
      cardLoop rp guar cells cc mode draw seen attempts fuel = .ok (cw, s2) →
      ¬ SampleError rp guar cells mode ∧
      (∃ a, attempts ≤ a ∧ cw = (draw a).shuffled) ∧
      (s2 = cw :: seen ∨ s2 = seen) := by
  intro fuel
  induction fuel with
  | zero => intro attempts cw s2 h; rw [cardLoop_zero] at h; exact absurd h (by simp)
  | succ fuel ih =>
    intro attempts cw s2 h
    rw [cardLoop_succ] at h
    by_cases herr : (sampleSize cells guar.length rp.length mode < 0 ∨
        (rp.length : Int) < sampleSize cells guar.length rp.length mode)
    · rw [if_pos herr] at h; exact absurd h (by simp)
    · rw [if_neg herr] at h
      by_cases hacc : (draw attempts).shuffled ∉ seen ∨ _factorial_limit cells < cc
      · rw [if_pos hacc] at h
        simp only [Except.ok.injEq, Prod.mk.injEq] at h
        obtain ⟨rfl, rfl⟩ := h
        exact ⟨herr, ⟨attempts, le_refl _, rfl⟩, Or.inl rfl⟩
      · rw [if_neg hacc] at h
        cases fuel with
        | zero =>
          simp only [Except.ok.injEq, Prod.mk.injEq] at h
          obtain ⟨rfl, rfl⟩ := h
          exact ⟨herr, ⟨attempts, le_refl _, rfl⟩, Or.inr rfl⟩
        | succ fuel' =>
          obtain ⟨h1, ⟨a, ha, h2⟩, h3⟩ := ih (attempts + 1) cw s2 h
          exact ⟨h1, ⟨a, by omega, h2⟩, h3⟩

lemma cardLoop_ok_exists (rp guar : List Word) (cells cc : Nat) (mode : String)
    (draw : Nat → Draw) (seen : List (List Word))
    (herr : ¬ SampleError rp guar cells mode) :
    ∀ (fuel attempts : Nat), ∃ cw s2,
      cardLoop rp guar cells cc mode draw seen attempts (fuel + 1) = .ok (cw, s2) := by
  have herr' : ¬ (sampleSize cells guar.length rp.length mode < 0 ∨
      (rp.length : Int) < sampleSize cells guar.length rp.length mode) := herr
  intro fuel
  induction fuel with
  | zero =>
    intro attempts
    rw [cardLoop_succ]
    rw [if_neg herr']
    by_cases hacc : (draw attempts).shuffled ∉ seen ∨ _factorial_limit cells < cc
    · rw [if_pos hacc]; exact ⟨_, _, rfl⟩
    · rw [if_neg hacc]; exact ⟨_, _, rfl⟩
  | succ fuel ih =>
    intro attempts
    rw [cardLoop_succ]
    rw [if_neg herr']
    by_cases hacc : (draw attempts).shuffled ∉ seen ∨ _factorial_limit cells < cc
    · rw [if_pos hacc]; exact ⟨_, _, rfl⟩
    · rw [if_neg hacc]; exact ih (attempts + 1)

lemma cardLoop_bypass (rp guar : List Word) (cells cc : Nat) (mode : String)
    (draw : Nat → Draw) (seen : List (List Word)) (attempts fuel : Nat)
    (herr : ¬ SampleError rp guar cells mode)
    (hbp : _factorial_limit cells < cc) :
    cardLoop rp guar cells cc mode draw seen attempts (fuel + 1) =
      .ok ((draw attempts).shuffled, (draw attempts).shuffled :: seen) := by
  have herr' : ¬ (sampleSize cells guar.length rp.length mode < 0 ∨
      (rp.length : Int) < sampleSize cells guar.length rp.length mode) := herr
  rw [cardLoop_succ]
  rw [if_neg herr', if_pos (Or.inr hbp)]

lemma cardLoop_accept_notmem (rp guar : List Word) (cells cc : Nat) (mode : String)
    (draw : Nat → Draw) (seen : List (List Word)) (attempts fuel : Nat)
    (herr : ¬ SampleError rp guar cells mode)
    (hnot : (draw attempts).shuffled ∉ seen) :
    cardLoop rp guar cells cc mode draw seen attempts (fuel + 1) =
      .ok ((draw attempts).shuffled, (draw attempts).shuffled :: seen) := by
  have herr' : ¬ (sampleSize cells guar.length rp.length mode < 0 ∨
      (rp.length : Int) < sampleSize cells guar.length rp.length mode) := herr
  rw [cardLoop_succ]
  rw [if_neg herr', if_pos (Or.inl hnot)]

lemma cardLoop_frame (rp guar : List Word) (cells cc : Nat) (mode : String)
    (d1 d2 : Nat → Draw) (seen : List (List Word)) :
    ∀ (fuel attempts : Nat),
      (∀ j, attempts ≤ j → j < attempts + fuel → d1 j = d2 j) →
      cardLoop rp guar cells cc mode d1 seen attempts fuel =
        cardLoop rp guar cells cc mode d2 seen attempts fuel := by
  intro fuel
  induction fuel with
  | zero => intro attempts _; rw [cardLoop_zero, cardLoop_zero]
  | succ fuel ih =>
    intro attempts hag
    have hd : d1 attempts = d2 attempts := hag attempts (le_refl _) (by omega)
    rw [cardLoop_succ, cardLoop_succ, hd]
    by_cases herr : (sampleSize cells guar.length rp.length mode < 0 ∨
        (rp.length : Int) < sampleSize cells guar.length rp.length mode)
    · rw [if_pos herr, if_pos herr]
    · rw [if_neg herr, if_neg herr]
      by_cases hacc : (d2 attempts).shuffled ∉ seen ∨ _factorial_limit cells < cc
      · rw [if_pos hacc, if_pos hacc]
      · rw [if_neg hacc, if_neg hacc]
        cases fuel with
        | zero => rfl
        | succ fuel' =>
          have := ih (attempts + 1) (fun j h1 h2 => hag j (by omega) (by omega))
          simp only [this]

/-! ### Behaviour of the per-card loop of `generate_boards` -/

lemma genLoop_length (rp guar : List Word) (cells bs cc : Nat) (mode : String)
    (draws : Nat → Nat → Draw) :
    ∀ (l : List Nat) (seen : List (List Word)) (gs : List (List (List Word))),
      genLoop rp guar cells bs cc mode draws l seen = .ok gs → gs.length = l.length := by
  intro l
  induction l with
  | nil =>
    intro seen gs h
    simp only [genLoop, Except.ok.injEq] at h
    subst h; rfl
  | cons i rest ih =>
    intro seen gs h
    simp only [genLoop] at h
    cases h1 : cardLoop rp guar cells cc mode (draws i) seen 0 100 with
    | error e => rw [h1] at h; exact absurd h (by simp)
    | ok p =>
      obtain ⟨cw, seen2⟩ := p
      rw [h1] at h
      dsimp only at h
      cases h2 : _build_grid cw bs with
      | error e => rw [h2] at h; exact absurd h (by simp)
      | ok grid =>
        rw [h2] at h
        cases h3 : genLoop rp guar cells bs cc mode draws rest seen2 with
        | error e => rw [h3] at h; exact absurd h (by simp)
        | ok gs' =>
          rw [h3] at h
          simp only [Except.ok.injEq] at h
          subst h
          simp [ih seen2 gs' h3]

lemma genLoop_inv (rp guar : List Word) (cells bs cc : Nat) (mode : String)
    (draws : Nat → Nat → Draw) :
    ∀ (l : List Nat) (seen : List (List Word)) (gs : List (List (List Word))),
      genLoop rp guar cells bs cc mode draws l seen = .ok gs →
      ∀ g ∈ gs, ¬ SampleError rp guar cells mode ∧
        ∃ i a, _build_grid ((draws i a).shuffled) bs = .ok g := by
  intro l
  induction l with
  | nil =>
    intro seen gs h
    simp only [genLoop, Except.ok.injEq] at h
    subst h; simp
  | cons i rest ih =>
    intro seen gs h
    simp only [genLoop] at h
    cases h1 : cardLoop rp guar cells cc mode (draws i) seen 0 100 with
    | error e => rw [h1] at h; exact absurd h (by simp)
    | ok p =>
      obtain ⟨cw, seen2⟩ := p
      rw [h1] at h
      dsimp only at h
      cases h2 : _build_grid cw bs with
      | error e => rw [h2] at h; exact absurd h (by simp)
      | ok grid =>
        rw [h2] at h
        cases h3 : genLoop rp guar cells bs cc mode draws rest seen2 with
        | error e => rw [h3] at h; exact absurd h (by simp)
        | ok gs' =>
          rw [h3] at h
          simp only [Except.ok.injEq] at h
          subst h
          obtain ⟨herr, ⟨a, _, hcw⟩, _⟩ := cardLoop_shape rp guar cells cc mode (draws i) seen 100 0 cw seen2 h1
          intro g hg
          rcases List.mem_cons.mp hg with rfl | hmem
          · exact ⟨herr, i, a, by rw [← hcw]; exact h2⟩
          · exact ih seen2 gs' h3 g hmem

lemma genLoop_ok_exists (rp guar : List Word) (cells bs cc : Nat) (mode : String)
    (draws : Nat → Nat → Draw)
    (herr : ¬ SampleError rp guar cells mode)
    (hbuild : ∀ i a, ∃ g, _build_grid ((draws i a).shuffled) bs = .ok g) :
    ∀ (l : List Nat) (seen : List (List Word)),
      ∃ gs, genLoop rp guar cells bs cc mode draws l seen = .ok gs ∧
        gs.length = l.length := by
  intro l
  induction l with
  | nil => intro seen; exact ⟨[], by simp [genLoop]⟩
  | cons i rest ih =>
    intro seen
    obtain ⟨cw, seen2, h1⟩ := cardLoop_ok_exists rp guar cells cc mode (draws i) seen herr 99 0
    obtain ⟨_, ⟨a, _, hcw⟩, _⟩ := cardLoop_shape rp guar cells cc mode (draws i) seen 100 0 cw seen2 h1
    obtain ⟨grid, h2⟩ := hcw ▸ hbuild i a
    obtain ⟨gs', h3, hlen⟩ := ih seen2
    refine ⟨grid :: gs', ?_, by simp [hlen]⟩
    simp only [genLoop, h1, h2, h3]

lemma genLoop_bypass (rp guar : List Word) (cells bs cc : Nat) (mode : String)
    (draws : Nat → Nat → Draw)
    (herr : ¬ SampleError rp guar cells mode)
    (hbp : _factorial_limit cells < cc)
    (hbuild : ∀ i a, ∃ g, _build_grid ((draws i a).shuffled) bs = .ok g) :
    ∀ (l : List Nat) (seen : List (List Word)),
      ∃ gs, genLoop rp guar cells bs cc mode draws l seen = .ok gs ∧
        gs.length = l.length ∧
        ∀ (n : Nat) (hn : n < l.length), ∃ g,
          _build_grid ((draws (l.get ⟨n, hn⟩) 0).shuffled) bs = .ok g ∧
          gs.get? n = some g := by
  intro l
  induction l with
  | nil =>
    intro seen
    refine ⟨[], by simp [genLoop], by simp, ?_⟩
    intro n hn; exact absurd hn (by simp)
  | cons i rest ih =>
    intro seen
    have h1 := cardLoop_bypass rp guar cells cc mode (draws i) seen 0 99 herr hbp
    obtain ⟨grid, h2⟩ := hbuild i 0
    obtain ⟨gs', h3, hlen, hidx⟩ := ih (((draws i) 0).shuffled :: seen)
    refine ⟨grid :: gs', ?_, by simp [hlen], ?_⟩
    · simp only [genLoop, h1, h2, h3]
    · intro n hn
      cases n with
      | zero => exact ⟨grid, h2, rfl⟩
      | succ n' =>
        have hn' : n' < rest.length := by simpa using hn
        obtain ⟨g, hg1, hg2⟩ := hidx n' hn'
        exact ⟨g, hg1, by simpa using hg2⟩

/-! ### Facts about the pool partition and valid candidates -/

lemma mem_guaranteedOf {words custom : List Word} {w : Word} :
    w ∈ guaranteedOf words custom ↔ w ∈ custom ∧ w ∈ words := by
  simp [guaranteedOf]

lemma mem_remainingPoolOf {words custom : List Word} {w : Word} :
    w ∈ remainingPoolOf words custom ↔ w ∈ words ∧ w ∉ guaranteedOf words custom := by
  simp [remainingPoolOf]

/-- `SampleError` depends only on the lengths involved; this is the same
condition phrased on lengths. -/
def SampleError' (cells guarLen rpLen : Nat) (word_mode : String) : Prop :=
  sampleSize cells guarLen rpLen word_mode < 0 ∨
    (rpLen : Int) < sampleSize cells guarLen rpLen word_mode

lemma sampleError_iff (rp guar : List Word) (cells : Nat) (mode : String) :
    SampleError rp guar cells mode ↔ SampleError' cells guar.length rp.length mode :=
  Iff.rfl

lemma no_sample_error_of_feasible (cells guarLen rpLen : Nat) (mode : String)
    (hguar : guarLen ≤ cells) (hfeas : cells ≤ guarLen + rpLen) :
    ¬ SampleError' cells guarLen rpLen mode := by
  unfold SampleError' sampleSize
  by_cases hm : mode = "same_shuffled" <;> simp [hm] <;> omega

lemma cand_len_le (cells guarLen rpLen : Nat) (mode : String)
    (herr : ¬ SampleError' cells guarLen rpLen mode) :
    guarLen + (sampleSize cells guarLen rpLen mode).toNat ≤ cells := by
  unfold SampleError' sampleSize at *
  by_cases hm : mode = "same_shuffled" <;> simp [hm] at herr ⊢ <;> omega

lemma cand_len_eq_of_feasible (cells guarLen rpLen : Nat) (mode : String)
    (hguar : guarLen ≤ cells) (hfeas : cells ≤ guarLen + rpLen) :
    guarLen + (sampleSize cells guarLen rpLen mode).toNat = cells := by
  unfold sampleSize
  by_cases hm : mode = "same_shuffled" <;> simp [hm] <;> omega

/-! ### Explicit 5×5 grid layout -/

lemma exists_cons24 (l : List Word) (h : 24 ≤ l.length) :
    ∃ a0 a1 a2 a3 a4 a5 a6 a7 a8 a9 a10 a11 a12 a13 a14 a15 a16 a17 a18 a19 a20 a21
      a22 a23 tl,
      l = a0 :: a1 :: a2 :: a3 :: a4 :: a5 :: a6 :: a7 :: a8 :: a9 :: a10 :: a11 :: a12 ::
        a13 :: a14 :: a15 :: a16 :: a17 :: a18 :: a19 :: a20 :: a21 :: a22 :: a23 :: tl := by
  obtain _ | ⟨a0, l⟩ := l; · simp at h
  obtain _ | ⟨a1, l⟩ := l; · simp at h
  obtain _ | ⟨a2, l⟩ := l; · simp at h
  obtain _ | ⟨a3, l⟩ := l; · simp at h
  obtain _ | ⟨a4, l⟩ := l; · simp at h
  obtain _ | ⟨a5, l⟩ := l; · simp at h
  obtain _ | ⟨a6, l⟩ := l; · simp at h
  obtain _ | ⟨a7, l⟩ := l; · simp at h
  obtain _ | ⟨a8, l⟩ := l; · simp at h
  obtain _ | ⟨a9, l⟩ := l; · simp at h
  obtain _ | ⟨a10, l⟩ := l; · simp at h
  obtain _ | ⟨a11, l⟩ := l; · simp at h
  obtain _ | ⟨a12, l⟩ := l; · simp at h
  obtain _ | ⟨a13, l⟩ := l; · simp at h
  obtain _ | ⟨a14, l⟩ := l; · simp at h
  obtain _ | ⟨a15, l⟩ := l; · simp at h
  obtain _ | ⟨a16, l⟩ := l; · simp at h
  obtain _ | ⟨a17, l⟩ := l; · simp at h
  obtain _ | ⟨a18, l⟩ := l; · simp at h
  obtain _ | ⟨a19, l⟩ := l; · simp at h
  obtain _ | ⟨a20, l⟩ := l; · simp at h
  obtain _ | ⟨a21, l⟩ := l; · simp at h
  obtain _ | ⟨a22, l⟩ := l; · simp at h
  obtain _ | ⟨a23, l⟩ := l; · simp at h
  exact ⟨a0, a1, a2, a3, a4, a5, a6, a7, a8, a9, a10, a11, a12, a13, a14, a15, a16, a17,
    a18, a19, a20, a21, a22, a23, l, rfl⟩

lemma build_grid_cons24 (a0 a1 a2 a3 a4 a5 a6 a7 a8 a9 a10 a11 a12 a13 a14 a15 a16 a17
    a18 a19 a20 a21 a22 a23 : Word) (tl : List Word) :
    _build_grid (a0 :: a1 :: a2 :: a3 :: a4 :: a5 :: a6 :: a7 :: a8 :: a9 :: a10 :: a11 ::
      a12 :: a13 :: a14 :: a15 :: a16 :: a17 :: a18 :: a19 :: a20 :: a21 :: a22 :: a23 ::
      tl) 5 =
      .ok [[a0, a1, a2, a3, a4], [a5, a6, a7, a8, a9], [a10, a11, "FREE", a12, a13],
        [a14, a15, a16, a17, a18], [a19, a20, a21, a22, a23]] := rfl

lemma valid_cand_facts (words custom : List Word) (k : Nat) (d : Draw)
    (hv : ValidDraw (remainingPoolOf words custom) (guaranteedOf words custom) k d) :
    d.shuffled.length = (guaranteedOf words custom).length + k ∧
    (∀ w ∈ d.shuffled, w ∈ words) ∧
    (∀ w, d.shuffled.count w =
      (guaranteedOf words custom).count w + d.filler.count w) ∧
    (words.Nodup → custom.Nodup → d.shuffled.Nodup) := by
  obtain ⟨hnd, hsub, hlen, hperm⟩ := hv
  refine ⟨?_, ?_, ?_, ?_⟩
  · rw [hperm.length_eq, List.length_append, hlen]
  · intro w hw
    rcases List.mem_append.mp (hperm.mem_iff.mp hw) with h | h
    · exact (mem_guaranteedOf.mp h).2
    · exact (mem_remainingPoolOf.mp (hsub h)).1
  · intro w
    rw [hperm.count_eq, List.count_append]
  · intro _hwords hcustom
    rw [hperm.nodup_iff, List.nodup_append]
    refine ⟨hcustom.filter _, hnd, ?_⟩
    intro w hwg hwf
    exact (mem_remainingPoolOf.mp (hsub hwf)).2 hwg

/-! ### Concrete data shared by the witnesses -/

def pool24 : List Word :=
  ["a", "b", "c", "d", "e", "f", "g", "h", "i", "j", "k", "l", "m", "n", "o", "p",
    "q", "r", "s", "t", "u", "v", "w", "x"]

def pool24swap : List Word :=
  ["b", "a", "c", "d", "e", "f", "g", "h", "i", "j", "k", "l", "m", "n", "o", "p",
    "q", "r", "s", "t", "u", "v", "w", "x"]

def draws24 : Nat → Nat → Draw :=
  fun i _ => if i = 0 then ⟨pool24, pool24⟩ else ⟨pool24, pool24swap⟩

def grid24 : List (List Word) :=
  [["a", "b", "c", "d", "e"], ["f", "g", "h", "i", "j"], ["k", "l", "FREE", "m", "n"],
    ["o", "p", "q", "r", "s"], ["t", "u", "v", "w", "x"]]

def grid24swap : List (List Word) :=
  [["b", "a", "c", "d", "e"], ["f", "g", "h", "i", "j"], ["k", "l", "FREE", "m", "n"],
    ["o", "p", "q", "r", "s"], ["t", "u", "v", "w", "x"]]

lemma genLoop_frame (rp guar : List Word) (cells bs cc : Nat) (mode : String)
    (d1 d2 : Nat → Nat → Draw)
    (hag : ∀ i j, j < 100 → d1 i j = d2 i j) :
    ∀ (l : List Nat) (seen : List (List Word)),
      genLoop rp guar cells bs cc mode d1 l seen =
        genLoop rp guar cells bs cc mode d2 l seen := by
  intro l
  induction l with
  | nil => intro seen; rfl
  | cons i rest ih =>
    intro seen
    have hcard := cardLoop_frame rp guar cells cc mode (d1 i) (d2 i) seen 100 0
      (fun j _ h2 => hag i j (by omega))
    simp only [genLoop, hcard, ih]

/-- Every card of a successful batch generated with a valid oracle is built
from the post-shuffle word list of some valid draw, and that list has at most
`cells_needed` words. -/
lemma generate_cand (words custom : List Word) (bs cc : Nat) (mode : String)
    (draws : Nat → Nat → Draw) (boards : List (List (List Word)))
    (hv : ValidDraws (remainingPoolOf words custom) (guaranteedOf words custom)
      (cellsNeeded bs) mode draws)
    (hok : generate_boards words bs cc mode custom draws = .ok boards) :
    ∀ g ∈ boards, ∃ d : Draw,
      ValidDraw (remainingPoolOf words custom) (guaranteedOf words custom)
        ((sampleSize (cellsNeeded bs) (guaranteedOf words custom).length
          (remainingPoolOf words custom).length mode).toNat) d ∧
      _build_grid d.shuffled bs = .ok g ∧
      d.shuffled.length ≤ cellsNeeded bs := by
  intro g hg
  unfold generate_boards at hok
  obtain ⟨herr, i, a, hbuild⟩ := genLoop_inv _ _ _ _ _ _ _ _ _ _ hok g hg
  refine ⟨draws i a, hv i a, hbuild, ?_⟩
  have h1 := (valid_cand_facts words custom _ (draws i a) (hv i a)).1
  have h2 := cand_len_le (cellsNeeded bs) (guaranteedOf words custom).length
    (remainingPoolOf words custom).length mode (by exact herr)
  omega

/-! ### Claim theorems -/

/-- C3: for `size = 5` (`cells_needed = 24`) and SharedPool mode
(`same_shuffled`), every pool of at least 24 words validates with `OK` for
every card count, and every smaller pool fails with the message stating the
required count 24, the 5x5 grid dimensions, and the actual pool size. -/
theorem validator_boundary_size5 (words : List Word) (card_count : Nat) :
    (24 ≤ words.length →
      validate_word_count words 5 card_count "same_shuffled" = (true, "OK")) ∧
    (words.length < 24 →
      validate_word_count words 5 card_count "same_shuffled" =
        (false, "Need at least 24 words for a 5x5 board, but only have " ++
          toString words.length ++ ".")) := by
  constructor
  · intro h
    simp only [validate_word_count]
    rw [if_neg (by norm_num; omega), if_neg (by simp)]
  · intro h
    simp only [validate_word_count]
    rw [if_pos (by norm_num; omega)]
    exact rfl

/-- Witness for `validator_boundary_size5`: a 24-word pool validates, a
23-word pool fails with a message mentioning 24. -/
theorem validator_boundary_size5_witness :
    validate_word_count (List.replicate 24 "w") 5 7 "same_shuffled" = (true, "OK") ∧
    validate_word_count (List.replicate 23 "w") 5 7 "same_shuffled" =
      (false, "Need at least 24 words for a 5x5 board, but only have 23.") := by
  constructor
  · exact (validator_boundary_size5 (List.replicate 24 "w") 7).1 (by simp)
  · exact (validator_boundary_size5 (List.replicate 23 "w") 7).2 (by simp)

/-- C9: in DistinctPerCard mode (`different_per_board`), a pool with
`cells ≤ len(pool) < cells + 5` fails validation with a message recommending
`min(cells*2, cells + card_count*3)` words and suggesting the mode switch. -/
theorem validator_advisory (words : List Word) (bs card_count : Nat)
    (hl : cellsNeeded bs ≤ words.length) (hu : words.length < cellsNeeded bs + 5) :
    validate_word_count words bs card_count "different_per_board" =
      (false, "For boards with different words, recommend at least " ++
        toString (min (cellsNeeded bs * 2) (cellsNeeded bs + card_count * 3)) ++
        " words. You have " ++ toString words.length ++
        ". Add more words or switch to \x27Same words\x27 mode.") := by
  unfold cellsNeeded at hl hu
  simp only [validate_word_count, cellsNeeded]
  rw [if_neg (by omega), if_pos (by exact ⟨by trivial, by omega⟩)]

/-- Witness for `validator_advisory`: the spec's example, a 25-word pool with
`size=5`, `card_count=10`, fails and recommends 48 words, with
`24 ≤ 48 ≤ 54`. -/
theorem validator_advisory_witness :
    validate_word_count (List.replicate 25 "w") 5 10 "different_per_board" =
      (false, "For boards with different words, recommend at least 48 words. " ++
        "You have 25. Add more words or switch to \x27Same words\x27 mode.") ∧
    24 ≤ 48 ∧ 48 ≤ 54 := by
  refine ⟨?_, by norm_num, by norm_num⟩
  exact validator_advisory (List.replicate 25 "w") 5 10 (by simp [cellsNeeded])
    (by simp [cellsNeeded])

/-- C7: every successful `generate_boards` call returns exactly `card_count`
cards. -/
theorem batch_size_invariant (words custom : List Word) (bs cc : Nat) (mode : String)
    (draws : Nat → Nat → Draw) (boards : List (List (List Word)))
    (hcc : 1 ≤ cc)
    (hok : generate_boards words bs cc mode custom draws = .ok boards) :
    boards.length = cc := by
  unfold generate_boards at hok
  have := genLoop_length _ _ _ _ _ _ _ _ _ _ hok
  simpa using this

/-- Witness for `batch_size_invariant`: a concrete 2-card batch. -/
theorem batch_size_invariant_witness :
    ([grid24, grid24swap] : List (List (List Word))).length = 2 :=
  batch_size_invariant pool24 [] 5 2 "same_shuffled" draws24 [grid24, grid24swap]
    (by norm_num) rfl

/-- C4: every card of a successful batch (generated with any mode and a valid
random oracle, from a pool not containing the sentinel) is a `size × size`
matrix, and for `size = 5` the cell at row 2, column 2 holds `FREE` and
`FREE` appears in no other cell (its total count over the card is 1). -/
theorem grid_shape_invariant (words custom : List Word) (bs cc : Nat) (mode : String)
    (draws : Nat → Nat → Draw) (boards : List (List (List Word)))
    (hfree : "FREE" ∉ words)
    (hv : ValidDraws (remainingPoolOf words custom) (guaranteedOf words custom)
      (cellsNeeded bs) mode draws)
    (hok : generate_boards words bs cc mode custom draws = .ok boards) :
    ∀ g ∈ boards, g.length = bs ∧ (∀ r ∈ g, r.length = bs) ∧
      (bs = 5 → (g.getD 2 []).getD 2 "" = "FREE" ∧ g.flatten.count "FREE" = 1) := by
  intro g hg
  obtain ⟨d, hvd, hbuild, hlen⟩ :=
    generate_cand words custom bs cc mode draws boards hv hok g hg
  obtain ⟨hglen, hrows, hN, hcount⟩ := build_grid_spec d.shuffled bs g hbuild
  refine ⟨hglen, hrows, ?_⟩
  intro hbs
  subst hbs
  have hc24 : cellsNeeded 5 = 24 := by decide
  constructor
  · obtain ⟨a0, a1, a2, a3, a4, a5, a6, a7, a8, a9, a10, a11, a12, a13, a14, a15, a16,
      a17, a18, a19, a20, a21, a22, a23, tl, hws⟩ :=
      exists_cons24 d.shuffled (by omega)
    rw [hws, build_grid_cons24] at hbuild
    simp only [Except.ok.injEq] at hbuild
    subst hbuild
    rfl
  · have hc := hcount "FREE"
    have hdrop : d.shuffled.drop (cellsNeeded 5) = [] :=
      List.drop_eq_nil_of_le hlen
    have hmem : "FREE" ∉ d.shuffled := fun hm =>
      hfree ((valid_cand_facts words custom _ d hvd).2.1 _ hm)
    rw [hdrop, List.count_eq_zero_of_not_mem hmem, totalFreeCnt_eq] at hc
    simpa using hc

/-- Witness for `grid_shape_invariant`: a concrete 5×5 card. -/
theorem grid_shape_invariant_witness :
    grid24.length = 5 ∧ (grid24.getD 2 []).getD 2 "" = "FREE" ∧
      grid24.flatten.count "FREE" = 1 := by
  have h := grid_shape_invariant pool24 [] 5 2 "same_shuffled" draws24
    [grid24, grid24swap] (by decide)
    (by
      intro i j
      by_cases hi : i = 0 <;> simp [draws24, hi] <;> decide)
    rfl grid24 (by simp)
  exact ⟨h.1, (h.2.2 rfl).1, (h.2.2 rfl).2⟩

/-- C5: from a duplicate-free pool with duplicate-free in-pool pinned words
fitting the card, every cell of every generated card is a pool word or the
`FREE` sentinel, and no word occupies two cells of the same card. -/
theorem completeness_invariant (words custom : List Word) (bs cc : Nat) (mode : String)
    (draws : Nat → Nat → Draw) (boards : List (List (List Word)))
    (hwords : words.Nodup) (hcustom : custom.Nodup)
    (hsub : ∀ w ∈ custom, w ∈ words)
    (hcnt : custom.length ≤ cellsNeeded bs)
    (hfree : "FREE" ∉ words)
    (hv : ValidDraws (remainingPoolOf words custom) (guaranteedOf words custom)
      (cellsNeeded bs) mode draws)
    (hok : generate_boards words bs cc mode custom draws = .ok boards) :
    ∀ g ∈ boards, (∀ c ∈ g.flatten, c = "FREE" ∨ c ∈ words) ∧
      (∀ w ∈ words, g.flatten.count w ≤ 1) := by
  intro g hg
  obtain ⟨d, hvd, hbuild, hlen⟩ :=
    generate_cand words custom bs cc mode draws boards hv hok g hg
  obtain ⟨_, _, hN, hcount⟩ := build_grid_spec d.shuffled bs g hbuild
  obtain ⟨hdl, hmemw, hcnt2, hnodup⟩ := valid_cand_facts words custom _ d hvd
  have hnd := hnodup hwords hcustom
  constructor
  · intro c hc
    by_cases hcf : c = "FREE"
    · exact Or.inl hcf
    · right
      have h1 := hcount c
      rw [if_neg hcf] at h1
      have hpos : 0 < g.flatten.count c := List.count_pos_iff.mpr hc
      have hpos2 : 0 < d.shuffled.count c := by omega
      exact hmemw c (List.count_pos_iff.mp hpos2)
  · intro w hw
    have h1 := hcount w
    have hwf : w ≠ "FREE" := fun e => hfree (e ▸ hw)
    rw [if_neg hwf] at h1
    have h2 : d.shuffled.count w ≤ 1 := List.nodup_iff_count_le_one.mp hnd w
    omega

/-- Witness for `completeness_invariant`: concrete pool and card. -/
theorem completeness_invariant_witness :
    (∀ c ∈ grid24.flatten, c = "FREE" ∨ c ∈ pool24) ∧
      (∀ w ∈ pool24, grid24.flatten.count w ≤ 1) := by
  have h := completeness_invariant pool24 [] 5 2 "same_shuffled" draws24
    [grid24, grid24swap] (by decide) (by decide) (by decide) (by decide) (by decide)
    (by
      intro i j
      by_cases hi : i = 0 <;> simp [draws24, hi] <;> decide)
    rfl grid24 (by simp)
  exact h

/-- C6: with non-empty duplicate-free pinned words, all belonging to the pool
and fitting the card, every pinned word appears exactly once on every card of
any successful batch. -/
theorem pinned_word_guarantee (words custom : List Word) (bs cc : Nat) (mode : String)
    (draws : Nat → Nat → Draw) (boards : List (List (List Word)))
    (hne : custom ≠ [])
    (hcustom : custom.Nodup) (hsub : ∀ w ∈ custom, w ∈ words)
    (hcnt : custom.length ≤ cellsNeeded bs) (hfree : "FREE" ∉ words)
    (hv : ValidDraws (remainingPoolOf words custom) (guaranteedOf words custom)
      (cellsNeeded bs) mode draws)
    (hok : generate_boards words bs cc mode custom draws = .ok boards) :
    ∀ g ∈ boards, ∀ p ∈ custom, g.flatten.count p = 1 := by
  intro g hg p hp
  obtain ⟨d, hvd, hbuild, hlen⟩ :=
    generate_cand words custom bs cc mode draws boards hv hok g hg
  obtain ⟨_, _, hN, hcount⟩ := build_grid_spec d.shuffled bs g hbuild
  obtain ⟨hdl, hmemw, hcnt2, _⟩ := valid_cand_facts words custom _ d hvd
  have hpw : p ∈ words := hsub p hp
  have hpf : p ≠ "FREE" := fun e => hfree (e ▸ hpw)
  have hdrop : d.shuffled.drop (cellsNeeded bs) = [] := List.drop_eq_nil_of_le hlen
  have h1 := hcount p
  rw [hdrop, if_neg hpf] at h1
  have hpg : p ∈ guaranteedOf words custom := mem_guaranteedOf.mpr ⟨hp, hpw⟩
  have hguar : (guaranteedOf words custom).count p = 1 :=
    List.count_eq_one_of_mem (hcustom.filter _) hpg
  have hfil : d.filler.count p = 0 := by
    apply List.count_eq_zero_of_not_mem
    intro hmem
    exact (mem_remainingPoolOf.mp (hvd.2.1 hmem)).2 hpg
  have h2 := hcnt2 p
  rw [hguar, hfil] at h2
  simp at h1
  omega

/-- Witness for `pinned_word_guarantee`: pinning the word `"a"`. -/
theorem pinned_word_guarantee_witness :
    grid24.flatten.count "a" = 1 := by
  have h := pinned_word_guarantee pool24 ["a"] 5 1 "same_shuffled"
    (fun _ _ => ⟨pool24.drop 1, pool24⟩) [grid24] (by decide) (by decide) (by decide)
    (by decide) (by decide)
    (by intro i j; simp only []; decide)
    rfl grid24 (by simp)
  exact h "a" (by simp)

/-- C10: when more of `custom_words` belong to the pool than there are cells,
`fill_needed` is negative and `random.sample` raises `ValueError` on the first
card in every mode, so the whole call errors and no batch is returned. -/
theorem over_pinned_error (words custom : List Word) (bs cc : Nat) (mode : String)
    (draws : Nat → Nat → Draw) (hcc : 1 ≤ cc)
    (hover : cellsNeeded bs < (guaranteedOf words custom).length) :
    generate_boards words bs cc mode custom draws =
      .error "Sample larger than population or is negative" := by
  unfold generate_boards
  obtain ⟨cc', rfl⟩ : ∃ cc', cc = cc' + 1 := ⟨cc - 1, by omega⟩
  rw [List.range_succ_eq_map]
  have herr : SampleError (remainingPoolOf words custom) (guaranteedOf words custom)
      (cellsNeeded bs) mode := by
    rw [sampleError_iff]
    unfold SampleError' sampleSize
    by_cases hm : mode = "same_shuffled"
    · simp [hm]; omega
    · simp [hm]; omega
  simp only [genLoop]
  rw [show (100 : Nat) = 99 + 1 from rfl, cardLoop_err _ _ _ _ _ _ _ _ _ herr]

/-- Witness for `over_pinned_error`: pinning all 5 words of a 5-word pool on
a 2×2 board (4 cells) errors. -/
theorem over_pinned_error_witness :
    generate_boards ["a", "b", "c", "d", "e"] 2 1 "same_shuffled"
      ["a", "b", "c", "d", "e"] (fun _ _ => ⟨[], []⟩) =
      .error "Sample larger than population or is negative" :=
  over_pinned_error ["a", "b", "c", "d", "e"] ["a", "b", "c", "d", "e"] 2 1
    "same_shuffled" (fun _ _ => ⟨[], []⟩) (by norm_num) (by decide)

/-- C8: when `card_count` exceeds `_factorial_limit(cells_needed)`, duplicate
checking is bypassed: every card is the grid of its attempt-0 draw, the call
succeeds with exactly `card_count` cards; and in every case the retry loop
consults at most the first 100 attempts of the oracle, so the whole run is
determined by 100 iterations per card. -/
theorem overflow_bypass (words custom : List Word) (bs cc : Nat) (mode : String)
    (draws : Nat → Nat → Draw)
    (hguar : (guaranteedOf words custom).length ≤ cellsNeeded bs)
    (hfeas : cellsNeeded bs ≤ (guaranteedOf words custom).length +
      (remainingPoolOf words custom).length)
    (hv : ValidDraws (remainingPoolOf words custom) (guaranteedOf words custom)
      (cellsNeeded bs) mode draws)
    (hbp : _factorial_limit (cellsNeeded bs) < cc) :
    (∃ boards, generate_boards words bs cc mode custom draws = .ok boards ∧
      boards.length = cc ∧
      ∀ (n : Nat), n < cc → ∃ g,
        _build_grid ((draws n 0).shuffled) bs = .ok g ∧ boards.get? n = some g) ∧
    (∀ (e1 e2 : Nat → Nat → Draw), (∀ i j, j < 100 → e1 i j = e2 i j) →
      generate_boards words bs cc mode custom e1 =
        generate_boards words bs cc mode custom e2) := by
  constructor
  · have herr : ¬ SampleError (remainingPoolOf words custom) (guaranteedOf words custom)
        (cellsNeeded bs) mode := by
      exact no_sample_error_of_feasible _ _ _ _ hguar hfeas
    have hbuild : ∀ i a, ∃ g, _build_grid ((draws i a).shuffled) bs = .ok g := by
      intro i a
      apply build_grid_ok_of_le
      have h1 := (valid_cand_facts words custom _ (draws i a) (hv i a)).1
      have h2 := cand_len_eq_of_feasible (cellsNeeded bs)
        (guaranteedOf words custom).length (remainingPoolOf words custom).length mode
        hguar hfeas
      omega
    obtain ⟨gs, hgs, hlen, hidx⟩ := genLoop_bypass _ _ _ _ _ _ _ herr hbp hbuild
      (List.range cc) []
    refine ⟨gs, ?_, by simpa using hlen, ?_⟩
    · unfold generate_boards; exact hgs
    · intro n hn
      have hn' : n < (List.range cc).length := by simpa using hn
      obtain ⟨g, hg1, hg2⟩ := hidx n hn'
      refine ⟨g, ?_, hg2⟩
      rwa [List.get_range] at hg1
  · intro e1 e2 hag
    unfold generate_boards
    exact genLoop_frame _ _ _ _ _ _ _ _ hag _ _

/-- Witness for `overflow_bypass`: a 1×1 board (`cells = 1`,
`_factorial_limit 1 = 1`) with 2 requested cards still yields 2 cards. -/
theorem overflow_bypass_witness :
    (generate_boards ["a"] 1 2 "same_shuffled" []
      (fun _ _ => ⟨["a"], ["a"]⟩)).toOption.map List.length = some 2 := by
  obtain ⟨⟨boards, hb, hl, _⟩, _⟩ := overflow_bypass ["a"] [] 1 2 "same_shuffled"
    (fun _ _ => ⟨["a"], ["a"]⟩) (by decide) (by decide)
    (by intro i j; simp only []; decide) (by decide)
  rw [hb]
  simp [Except.toOption, hl]

/-! ### Data for the C1 and C2 counterexamples -/

def pool17 : List Word :=
  ["a", "b", "c", "d", "e", "f", "g", "h", "i", "j", "k", "l", "m", "n", "o", "p", "q"]

def fill16a : List Word := pool17.take 16

def fill16b : List Word := pool17.drop 1

def draws17 : Nat → Nat → Draw :=
  fun i _ => if i = 0 then ⟨fill16a, fill16a⟩ else ⟨fill16b, fill16b⟩

def grid16a : List (List Word) :=
  [["a", "b", "c", "d"], ["e", "f", "g", "h"], ["i", "j", "k", "l"], ["m", "n", "o", "p"]]

def grid16b : List (List Word) :=
  [["b", "c", "d", "e"], ["f", "g", "h", "i"], ["j", "k", "l", "m"], ["n", "o", "p", "q"]]

def pool16 : List Word := pool17.take 16

def pool16swap : List Word :=
  ["b", "a", "c", "d", "e", "f", "g", "h", "i", "j", "k", "l", "m", "n", "o", "p"]

def pool16rev : List Word := pool16.reverse

def draws16 : Nat → Nat → Draw :=
  fun i j =>
    if i = 0 then ⟨pool16, pool16⟩
    else if j = 0 then ⟨pool16, pool16swap⟩ else ⟨pool16, pool16rev⟩

def grid16swap : List (List Word) :=
  [["b", "a", "c", "d"], ["e", "f", "g", "h"], ["i", "j", "k", "l"], ["m", "n", "o", "p"]]

/-- C1 counterexample: in `same_shuffled` mode `random.sample` runs inside the
per-card loop, so each card draws its own subset: over a 17-word pool with a
valid oracle, one batch of two 4×4 cards carries two different word multisets
(the first contains `"a"`, the second does not). -/
theorem sharedpool_not_fixed_subset :
    ValidDraws (remainingPoolOf pool17 []) (guaranteedOf pool17 []) (cellsNeeded 4)
      "same_shuffled" draws17 ∧
    generate_boards pool17 4 2 "same_shuffled" [] draws17 = .ok [grid16a, grid16b] ∧
    ¬ grid16a.flatten.Perm grid16b.flatten := by
  refine ⟨?_, rfl, by decide⟩
  intro i j
  by_cases hi : i = 0 <;> simp [draws17, hi] <;> exact (by decide)

/-- C1 amended: each card in `same_shuffled` mode draws an independent sample
of exactly `fill_needed` words; when the remaining pool has exactly
`fill_needed` words (pinned count + pool remainder = `cells_needed`), the
sample is forced and all cards of the batch carry the same multiset of cell
words. -/
theorem sharedpool_same_multiset_of_exact (words custom : List Word) (bs cc : Nat)
    (draws : Nat → Nat → Draw) (boards : List (List (List Word)))
    (hguar : (guaranteedOf words custom).length ≤ cellsNeeded bs)
    (hexact : (guaranteedOf words custom).length +
      (remainingPoolOf words custom).length = cellsNeeded bs)
    (hv : ValidDraws (remainingPoolOf words custom) (guaranteedOf words custom)
      (cellsNeeded bs) "same_shuffled" draws)
    (hok : generate_boards words bs cc "same_shuffled" custom draws = .ok boards) :
    ∀ g1 ∈ boards, ∀ g2 ∈ boards, g1.flatten.Perm g2.flatten := by
  have hcard : ∀ g ∈ boards, ∀ w, g.flatten.count w =
      (guaranteedOf words custom).count w + (remainingPoolOf words custom).count w +
        (if w = "FREE" then totalFreeCnt bs else 0) := by
    intro g hg w
    obtain ⟨d, hvd, hbuild, hlen⟩ :=
      generate_cand words custom bs cc "same_shuffled" draws boards hv hok g hg
    obtain ⟨_, _, hN, hcount⟩ := build_grid_spec d.shuffled bs g hbuild
    obtain ⟨hdl, _, hcnt2, _⟩ := valid_cand_facts words custom _ d hvd
    have hk : (sampleSize (cellsNeeded bs) (guaranteedOf words custom).length
        (remainingPoolOf words custom).length "same_shuffled").toNat =
        (remainingPoolOf words custom).length := by
      unfold sampleSize
      simp
      omega
    have hfperm : d.filler.Perm (remainingPoolOf words custom) := by
      obtain ⟨hnd, hsub, hflen, _⟩ := hvd
      have hsp := hnd.subperm hsub
      exact hsp.perm_of_length_le (by rw [hflen, hk])
    have hdrop : d.shuffled.drop (cellsNeeded bs) = [] := List.drop_eq_nil_of_le hlen
    have h1 := hcount w
    rw [hdrop] at h1
    have h2 := hcnt2 w
    rw [hfperm.count_eq] at h2
    simp at h1
    omega
  intro g1 hg1 g2 hg2
  rw [List.perm_iff_count]
  intro w
  rw [hcard g1 hg1 w, hcard g2 hg2 w]

/-- Witness for `sharedpool_same_multiset_of_exact`: a 24-word pool on a 5×5
board, two differently shuffled cards, same multiset. -/
theorem sharedpool_same_multiset_of_exact_witness :
    grid24.flatten.Perm grid24swap.flatten := by
  have h := sharedpool_same_multiset_of_exact pool24 [] 5 2 draws24
    [grid24, grid24swap] (by decide) (by decide)
    (by intro i j; by_cases hi : i = 0 <;> simp [draws24, hi] <;> exact (by decide))
    rfl
  exact h grid24 (by simp) grid24swap (by simp)

/-- C2 counterexample: `board_key = tuple(card_words)` is taken after the
shuffle, so the key is order-dependent: with a 16-word pool, the second card
repeats the first card's word set in a different order and is accepted on
attempt 0 (the distinct marker order supplied for attempt 1 is never used) —
it is not treated as a duplicate and not retried. -/
theorem dedup_key_order_dependent_cex :
    ValidDraws (remainingPoolOf pool16 []) (guaranteedOf pool16 []) (cellsNeeded 4)
      "same_shuffled" draws16 ∧
    generate_boards pool16 4 2 "same_shuffled" [] draws16 = .ok [grid16a, grid16swap] ∧
    grid16swap.flatten.Perm grid16a.flatten ∧ grid16swap ≠ grid16a := by
  refine ⟨?_, rfl, by decide, by decide⟩
  intro i j
  by_cases hi : i = 0
  · simp [draws16, hi]; exact (by decide)
  · by_cases hj : j = 0 <;> simp [draws16, hi, hj] <;> exact (by decide)

/-- C2 amended: the duplicate key is the full post-shuffle ordered word list:
whenever a candidate's ordering differs from every tuple in `seen`, it is
accepted immediately — even if its word multiset equals that of an
already-seen card — so equal word sets in different cell positions are not
retried against each other. -/
theorem dedup_key_order_dependent (rp guar : List Word) (cells cc : Nat)
    (mode : String) (draw : Nat → Draw) (seen : List (List Word))
    (attempts fuel : Nat) (s : List Word)
    (hs : s ∈ seen) (hperm : ((draw attempts).shuffled).Perm s)
    (hnot : (draw attempts).shuffled ∉ seen)
    (herr : ¬ SampleError rp guar cells mode) :
    cardLoop rp guar cells cc mode draw seen attempts (fuel + 1) =
      .ok ((draw attempts).shuffled, (draw attempts).shuffled :: seen) :=
  cardLoop_accept_notmem rp guar cells cc mode draw seen attempts fuel herr hnot

/-- Witness for `dedup_key_order_dependent`: the seen card `pool16` (in
order) and a candidate with the same words swapped is accepted at once. -/
theorem dedup_key_order_dependent_witness :
    cardLoop pool16 [] 16 2 "same_shuffled"
      (fun j => if j = 0 then ⟨pool16, pool16swap⟩ else ⟨pool16, pool16rev⟩)
      [pool16] 0 100 = .ok (pool16swap, [pool16swap, pool16]) := by
  have h := dedup_key_order_dependent pool16 [] 16 2 "same_shuffled"
    (fun j => if j = 0 then ⟨pool16, pool16swap⟩ else ⟨pool16, pool16rev⟩)
    [pool16] 0 99 pool16 (by simp) (by decide) (by decide) (by decide)
  exact h

end ChurchBingo
